import Mathlib

/-!
Verification of the SolidSense IPv6 mesh bridge (ipv6_service.py).

The Python source is shallowly embedded: byte strings become List Nat
(each element one byte value), Python strings become List Char, raised
exceptions become an explicit error type, and the mutable objects of the
transport become explicit records threaded through the functions.
-/

/-- Python exception kinds that the embedded code can raise. -/
inductive PyErr where
  | indexErr    -- IndexError
  | valueErr    -- ValueError
  | keyErr      -- KeyError
  | nameErr     -- NameError, from reading a variable never bound
  | runtimeErr  -- RuntimeError
  | overflowErr -- OverflowError, from int.to_bytes of an oversized value
  | structErr   -- struct.error, from unpack on a buffer of the wrong size
deriving DecidableEq, Repr

/-- Python slice b[i:j] on a byte string (start and stop clamp to the
    length, never raising). -/
def pySlice (b : List Nat) (i j : Nat) : List Nat :=
  (b.take j).drop i

/-- Python slice assignment b[i:j] = v on a bytearray for i less or equal
    j: the elements between the clamped bounds are replaced by v, growing
    the buffer when the range lies past the end. -/
def pySetSlice (b : List Nat) (i j : Nat) (v : List Nat) : List Nat :=
  b.take i ++ v ++ b.drop j

/-- Big-endian value of a byte list, as computed by struct.unpack. -/
def beVal (l : List Nat) : Nat :=
  l.foldl (fun acc x => acc * 256 + x) 0

/-- Model of struct.unpack with format string of one big-endian u32:
    requires exactly four bytes. -/
def pyUnpackU32 (l : List Nat) : Except PyErr Nat :=
  if l.length = 4 then .ok (beVal l) else .error .structErr

/-- Model of int.to_bytes(4, byteorder big): the four big-endian bytes,
    or OverflowError when the value does not fit. -/
def intToBytesBE4 (n : Nat) : Except PyErr (List Nat) :=
  if n < 2 ^ 32 then
    .ok [n >>> 24 &&& 255, n >>> 16 &&& 255, n >>> 8 &&& 255, n &&& 255]
  else .error .overflowErr

/-- Class Ipv6Add: a byte buffer together with a prefix length.
    The source fields are _add and _prefix_len. -/
structure Ipv6Add where
  add : List Nat
  prefixLen : Nat
deriving DecidableEq, Repr

/-- Constructor of Ipv6Add: raises ValueError when the buffer holds fewer
    than prefix_len / 8 bytes (real division in the source, so the test
    is 8 * length < prefix_len). -/
def mkIpv6Add (b : List Nat) (plen : Nat) : Except PyErr Ipv6Add :=
  if 8 * b.length < plen then .error .valueErr else .ok ⟨b, plen⟩

/-- Property wirepas_node_add: big-endian u32 at bytes 12..16, only for
    prefix length 128. -/
def wirepasNodeAdd (a : Ipv6Add) : Except PyErr Nat :=
  if a.prefixLen ≠ 128 then .error .valueErr
  else pyUnpackU32 (pySlice a.add 12 16)

/-- Property wirepas_sink_add: big-endian u32 at bytes 8..12, only for
    prefix length at least 96. -/
def wirepasSinkAdd (a : Ipv6Add) : Except PyErr Nat :=
  if a.prefixLen < 96 then .error .valueErr
  else pyUnpackU32 (pySlice a.add 8 12)

/-- Property named prefix in the source: the leading prefix_len / 8 bytes,
    only when the prefix length is a multiple of 8. -/
def addrPfx (a : Ipv6Add) : Except PyErr (List Nat) :=
  if a.prefixLen &&& 7 ≠ 0 then .error .valueErr
  else .ok (a.add.take (a.prefixLen >>> 3))

/-- Method start_with_prefix: byte-wise comparison of the leading bytes;
    indexes the buffer, so a comparand longer than the buffer raises. -/
def startWithPfx (a : Ipv6Add) (pb : List Nat) : Except PyErr Bool :=
  if a.add.length < pb.length then .error .indexErr
  else .ok (decide (a.add.take pb.length = pb))

/-- Classmethod from_prefix_and_sink_add: write the sink address into
    bytes 8..12 of a copy of the prefix buffer (growing it when the
    buffer is shorter than 12 bytes) and extend the prefix length by 32. -/
def fromPrefixAndSinkAdd (p : Ipv6Add) (sinkAdd : Nat) : Except PyErr Ipv6Add :=
  if p.prefixLen ≠ 64 then .error .runtimeErr
  else
    match intToBytesBE4 sinkAdd with
    | .error e => .error e
    | .ok sb => mkIpv6Add (pySetSlice p.add 8 12 sb) (p.prefixLen + 32)

/-- Classmethod from_prefix_sink_add_and_sink_node: write sink address
    into bytes 8..12 and node address into bytes 12..16, prefix length
    128. -/
def fromPrefixSinkAddAndSinkNode (p : Ipv6Add) (s n : Nat) : Except PyErr Ipv6Add :=
  if p.prefixLen ≠ 64 then .error .runtimeErr
  else
    match intToBytesBE4 s, intToBytesBE4 n with
    | .ok sb, .ok nb => mkIpv6Add (pySetSlice (pySetSlice p.add 8 12 sb) 12 16 nb) 128
    | .error e, _ => .error e
    | .ok _, .error e => .error e

/-- Model of str.split(sep, 1): the part before the first separator and,
    when the separator occurs, the remainder. -/
def splitOnceAux (sep : Char) : List Char → List Char → List Char × Option (List Char)
  | acc, [] => (acc.reverse, none)
  | acc, c :: rest =>
    if c = sep then (acc.reverse, some rest) else splitOnceAux sep (c :: acc) rest

/-- Model of str.split(sep) with a one-character separator: Python
    semantics, so an empty string yields one empty part. -/
def splitAllAux (sep : Char) : List Char → List Char → List (List Char)
  | acc, [] => [acc.reverse]
  | acc, c :: rest =>
    if c = sep then acc.reverse :: splitAllAux sep [] rest
    else splitAllAux sep (c :: acc) rest

/-- Model of str.split on the two-character separator of two colons,
    scanning left to right without overlap. -/
def splitColonColon : List Char → List Char → List (List Char)
  | acc, [] => [acc.reverse]
  | acc, [c] => [(c :: acc).reverse]
  | acc, a :: b :: rest =>
    if a = ':' ∧ b = ':' then acc.reverse :: splitColonColon [] rest
    else splitColonColon (a :: acc) (b :: rest)

/-- Value of a hexadecimal digit character, none for any other character. -/
def hexDigitVal (c : Char) : Option Nat :=
  if '0' ≤ c ∧ c ≤ '9' then some (c.toNat - 48)
  else if 'a' ≤ c ∧ c ≤ 'f' then some (c.toNat - 87)
  else if 'A' ≤ c ∧ c ≤ 'F' then some (c.toNat - 55)
  else none

/-- Model of int(s, 16) restricted to plain strings of hexadecimal
    digits; any other input is a parse failure. -/
def pyIntHex (s : List Char) : Option Nat :=
  if s = [] then none
  else s.foldlM (fun acc c => (hexDigitVal c).map (fun v => acc * 16 + v)) 0

/-- Value of a decimal digit character, none for any other character. -/
def decDigitVal (c : Char) : Option Nat :=
  if '0' ≤ c ∧ c ≤ '9' then some (c.toNat - 48) else none

/-- Model of int(s) restricted to plain strings of decimal digits. -/
def pyIntDec (s : List Char) : Option Nat :=
  if s = [] then none
  else s.foldlM (fun acc c => (decDigitVal c).map (fun v => acc * 10 + v)) 0

/-- Big-endian bytes of a value over a given byte count. -/
def beBytes (k v : Nat) : List Nat :=
  (List.range k).map (fun i => v >>> (8 * (k - 1 - i)) &&& 255)

/-- Bytes contributed by one group inside _append_groups: an empty group
    gives two zero bytes; otherwise the group parses as hexadecimal, is
    formatted zero-padded to at least four digits, and bytearray.fromhex
    turns the digits into bytes, failing on an odd digit count. -/
def groupBytes (g : List Char) : Except PyErr (List Nat) :=
  if g = [] then .ok [0, 0]
  else
    match pyIntHex g with
    | none => .error .valueErr
    | some v =>
      let digits := max 4 (Nat.toDigits 16 v).length
      if digits % 2 = 1 then .error .valueErr
      else .ok (beBytes (digits / 2) v)

/-- Inner helper _append_groups of from_srting, over a list of groups. -/
def appendGroups : List (List Char) → Except PyErr (List Nat)
  | [] => .ok []
  | g :: rest =>
    match groupBytes g, appendGroups rest with
    | .ok bs, .ok bs2 => .ok (bs ++ bs2)
    | .error e, _ => .error e
    | .ok _, .error e => .error e

/-- Body of from_srting after the prefix length has been separated: split
    on the double colon (exactly one required, else the tuple unpacking
    raises ValueError), expand the elided zero groups to reach eight
    groups, and build the address. -/
def fromSrtingBody (a : List Char) (plen : Nat) : Except PyErr Ipv6Add :=
  match splitColonColon [] a with
  | [p1, p2] =>
    let g1 := splitAllAux ':' [] p1
    let g2 := splitAllAux ':' [] p2
    match appendGroups g1 with
    | .error e => .error e
    | .ok b1 =>
      let zeros := List.replicate (2 * (8 - g1.length - g2.length)) 0
      match appendGroups g2 with
      | .error e => .error e
      | .ok b2 => mkIpv6Add (b1 ++ zeros ++ b2) plen
  | _ => .error .valueErr

/-- Classmethod from_srting (source spelling): split an optional /len
    suffix at the first slash (length defaults to 128), then parse the
    literal. -/
def from_srting (s : List Char) : Except PyErr Ipv6Add :=
  match splitOnceAux '/' [] s with
  | (a, none) => fromSrtingBody a 128
  | (a, some l) =>
    match pyIntDec l with
    | none => .error .valueErr
    | some plen => fromSrtingBody a plen

/-- Two lowercase hexadecimal digit characters of one byte. -/
def hexPair (n : Nat) : List Char :=
  [Nat.digitChar (n / 16 % 16), Nat.digitChar (n % 16)]

/-- Chunks of two bytes, scanned from the left. -/
def chunks2 : List Nat → List (List Nat)
  | [] => []
  | [a] => [[a]]
  | a :: b :: r => [a, b] :: chunks2 r

/-- Grouping used by bytes.hex with a separator every two bytes: the
    separator counts from the right, so an odd-length buffer starts with
    a single-byte group. -/
def hexChunks : List Nat → List (List Nat)
  | [] => []
  | h :: t => if (h :: t).length % 2 = 1 then [h] :: chunks2 t else chunks2 (h :: t)

/-- Join character groups with single colons. -/
def intercalateColon : List (List Char) → List Char
  | [] => []
  | [g] => g
  | g :: g2 :: r => g ++ ':' :: intercalateColon (g2 :: r)

/-- Model of bytes.hex with separator colon every two bytes. -/
def bytesHexSep (b : List Nat) : List Char :=
  intercalateColon ((hexChunks b).map (fun g => g.flatMap hexPair))

/-- Method named with double underscores str in the source: the hex form
    of the buffer, followed by a slash and the prefix length when the
    prefix length is below 128. -/
def ipv6AddStr (a : Ipv6Add) : List Char :=
  if a.prefixLen < 128 then bytesHexSep a.add ++ '/' :: Nat.toDigits 10 a.prefixLen
  else bytesHexSep a.add

/-- Class IPV6NetworkConfig. The source fields are nonce, nw_prefix and
    off_mesh_service; version is the constant 0. -/
structure IPV6NetworkConfig where
  nonce : Nat
  nwPfx : Option Ipv6Add
  offMeshService : Option Ipv6Add
deriving DecidableEq, Repr

/-- Entry loop of IPV6NetworkConfig.from_bytes over the bytes after the
    header. The selector top bit chooses the variant; a short entry
    raises ValueError; a repeated variant is only logged, the first
    occurrence is kept and the later one skipped. The fuel argument is
    the initial byte count; every iteration consumes at least nine list
    elements and one unit of fuel, so the zero-fuel arm is unreachable
    from fromBytes. -/
def parseEntries : Nat → List Nat → Option Ipv6Add → Option Ipv6Add →
    Except PyErr (Option Ipv6Add × Option Ipv6Add)
  | _, [], np, om => .ok (np, om)
  | fuel + 1, e :: rest, np, om =>
    if (e &&& 0x80) >>> 7 = 0 then
      if rest.length < 8 then .error .valueErr
      else
        parseEntries fuel (rest.drop 8)
          (match np with
           | some _ => np
           | none => some ⟨rest.take 8, 64⟩) om
    else
      if rest.length < 16 then .error .valueErr
      else
        parseEntries fuel (rest.drop 16) np
          (match om with
           | some _ => om
           | none => some ⟨rest.take 16, 128⟩)
  | 0, _ :: _, _, _ => .error .valueErr

/-- Classmethod IPV6NetworkConfig.from_bytes: indexing byte zero of an
    empty input raises IndexError; a version nibble other than zero
    raises ValueError; then the entries are parsed. -/
def fromBytes (b : List Nat) : Except PyErr IPV6NetworkConfig :=
  match b with
  | [] => .error .indexErr
  | b0 :: rest =>
    if (b0 &&& 0xf0) >>> 4 ≠ 0 then .error .valueErr
    else (parseEntries rest.length rest none none).map
      (fun po => ⟨b0 &&& 0xf, po.1, po.2⟩)

/-- Method IPV6NetworkConfig.to_bytes: header byte from version 0 and
    nonce, then the prefix entry with selector 0x00 if set, then the
    off-mesh entry with selector 0x80 if set. -/
def toBytes (c : IPV6NetworkConfig) : Except PyErr (List Nat) :=
  match c.nwPfx with
  | none =>
    .ok (((0 <<< 4) + c.nonce) ::
      (match c.offMeshService with
       | none => []
       | some o => 0x80 :: o.add))
  | some p =>
    (addrPfx p).map (fun pr =>
      ((0 <<< 4) + c.nonce) :: 0 :: pr ++
      (match c.offMeshService with
       | none => []
       | some o => 0x80 :: o.add))

/-- Fresh record built by the attach path when no previous configuration
    can be decoded: nonce 0, the discovered prefix and the supplied
    off-mesh service. -/
def freshConfig (nwPfx : Ipv6Add) (offMesh : Option Ipv6Add) : IPV6NetworkConfig :=
  ⟨0, some nwPfx, offMesh⟩

/-- Core of IPV6Sink._update_ipv6_config_to_app_config: entry66 is the
    value of TLV type 66 in the current application configuration, none
    when the entry is missing or the blob is not in TLV format (both of
    which give an empty envelope and hence a KeyError on lookup). A
    decoded record keeps everything except the rewritten prefix, the
    off-mesh service only when newly supplied, and the nonce incremented
    modulo 16; a KeyError or ValueError is caught and replaced by a fresh
    record; any other exception propagates. -/
def computeNewIpv6Config (entry66 : Option (List Nat)) (nwPfx : Ipv6Add)
    (offMesh : Option Ipv6Add) : Except PyErr IPV6NetworkConfig :=
  match entry66 with
  | none => .ok (freshConfig nwPfx offMesh)
  | some b =>
    match fromBytes b with
    | .ok cfg =>
      .ok { nonce := (cfg.nonce + 1) % 16
            nwPfx := some nwPfx
            offMeshService :=
              match offMesh with
              | some _ => offMesh
              | none => cfg.offMeshService }
    | .error .valueErr => .ok (freshConfig nwPfx offMesh)
    | .error .keyErr => .ok (freshConfig nwPfx offMesh)
    | .error e => .error e

/-- State of one attached sink that the detach and inbound paths touch:
    the mesh address, the discovered network prefix, the /96 route
    prefix, the interface address, and the neighbor-proxy cache (a set
    in the source, modelled as a duplicate-free list in insertion
    order). -/
structure SinkEntry where
  wpAddress : Nat
  nwPfx : Ipv6Add
  sinkPfx : Ipv6Add
  ifaceAddr : Ipv6Add
  neighProxy : List Nat
deriving DecidableEq, Repr

/-- Shell commands issued through _execute_cmd on the paths modelled
    here, identified by the address they mention. -/
inductive Cmd where
  | routeDel (p : Ipv6Add)
  | addrDel (a : Ipv6Add)
  | neighAdd (a : Ipv6Add)
  | neighDel (a : Ipv6Add)
deriving DecidableEq, Repr

/-- Lookup in the sink dictionary keyed by sink id. -/
def lookupSink (table : List (String × SinkEntry)) (id : String) : Option SinkEntry :=
  (table.find? (fun kv => kv.1 = id)).map (fun kv => kv.2)

/-- Replace the entry stored under a sink id, modelling in-place mutation
    of the sink object held by the dictionary. -/
def updateTable (table : List (String × SinkEntry)) (id : String) (e : SinkEntry) :
    List (String × SinkEntry) :=
  table.map (fun kv => if kv.1 = id then (kv.1, e) else kv)

/-- Method IPV6Sink.add_ndp_entry: nothing to do when the node is cached;
    otherwise derive the full address (which may raise), run the neigh
    add command with raising enabled, and cache the node on success.
    Returns the issued commands, an uncaught exception if any, and the
    resulting sink state. -/
def addNdpEntry (ok : Cmd → Bool) (e : SinkEntry) (node : Nat) :
    List Cmd × Option PyErr × SinkEntry :=
  if node ∈ e.neighProxy then ([], none, e)
  else
    match fromPrefixSinkAddAndSinkNode e.nwPfx e.wpAddress node with
    | .error er => ([], some er, e)
    | .ok addr =>
      if ok (.neighAdd addr) then
        ([.neighAdd addr], none, { e with neighProxy := e.neighProxy ++ [node] })
      else ([.neighAdd addr], some .runtimeErr, e)

/-- Method IPV6Sink.remove_ndp_entry: a node absent from the cache is a
    logged no-op; otherwise derive the address, run the neigh del command
    with raising enabled, and drop the node from the cache on success. -/
def removeNdpEntry (ok : Cmd → Bool) (e : SinkEntry) (node : Nat) :
    List Cmd × Option PyErr × SinkEntry :=
  if node ∉ e.neighProxy then ([], none, e)
  else
    match fromPrefixSinkAddAndSinkNode e.nwPfx e.wpAddress node with
    | .error er => ([], some er, e)
    | .ok addr =>
      if ok (.neighDel addr) then
        ([.neighDel addr], none, { e with neighProxy := e.neighProxy.filter (fun m => m ≠ node) })
      else ([.neighDel addr], some .runtimeErr, e)

/-- Loop at the end of IPV6Sink.stop over a snapshot of the cache; an
    exception from a removal aborts the remaining iterations. -/
def stopLoop (ok : Cmd → Bool) : List Nat → SinkEntry → List Cmd × Option PyErr × SinkEntry
  | [], e => ([], none, e)
  | n :: rest, e =>
    match removeNdpEntry ok e n with
    | (cs, some er, e2) => (cs, some er, e2)
    | (cs, none, e2) =>
      match stopLoop ok rest e2 with
      | (cs2, err2, e3) => (cs ++ cs2, err2, e3)

/-- Method IPV6Sink.stop, reduced to its observable effects: the thread
    wakeup and join carry no state modelled here, then every cached
    neighbor is removed from the NDP proxy. -/
def stopSink (ok : Cmd → Bool) (e : SinkEntry) : List Cmd × Option PyErr × SinkEntry :=
  stopLoop ok e.neighProxy e

/-- Method IPV6Transport._remove_sink_entry: an unknown sink id is a
    logged no-op (KeyError); otherwise remove the /96 route, remove the
    interface address, stop the sink, and evict the table entry. All
    three command helpers raise on failure and nothing but KeyError is
    caught, so a failure aborts the sequence with the table not yet
    mutated apart from in-place sink state. -/
def removeSinkEntry (ok : Cmd → Bool) (table : List (String × SinkEntry)) (name : String) :
    List Cmd × Option PyErr × List (String × SinkEntry) :=
  match lookupSink table name with
  | none => ([], none, table)
  | some e =>
    if ¬ ok (.routeDel e.sinkPfx) then ([.routeDel e.sinkPfx], some .runtimeErr, table)
    else if ¬ ok (.addrDel e.ifaceAddr) then
      ([.routeDel e.sinkPfx, .addrDel e.ifaceAddr], some .runtimeErr, table)
    else
      match stopSink ok e with
      | (cs, some er, e2) =>
        ([.routeDel e.sinkPfx, .addrDel e.ifaceAddr] ++ cs, some er, updateTable table name e2)
      | (cs, none, e2) =>
        ([.routeDel e.sinkPfx, .addrDel e.ifaceAddr] ++ cs, none,
         (updateTable table name e2).filter (fun kv => kv.1 ≠ name))

/-- Result of one inbound frame through IPV6Transport.on_data_received. -/
structure InboundResult where
  cmds : List Cmd
  err : Option PyErr
  table : List (String × SinkEntry)
  tunWrite : Option (List Nat)
  ndpSkipped : Bool
deriving DecidableEq, Repr

/-- Method IPV6Transport.on_data_received: frames whose endpoints are not
    both 66 are ignored. Otherwise the NDP proxy is refreshed for the
    source node; a missing sink id only logs an error (KeyError caught in
    _add_ndp_entry) and the payload is still written verbatim to the TUN.
    An exception escaping the refresh skips the write. -/
def onDataReceived (ok : Cmd → Bool) (table : List (String × SinkEntry))
    (sinkId : String) (src srcEp dstEp : Nat) (data : List Nat) : InboundResult :=
  if srcEp = 66 ∧ dstEp = 66 then
    match lookupSink table sinkId with
    | none => ⟨[], none, table, some data, true⟩
    | some e =>
      match addNdpEntry ok e src with
      | (cs, some er, e2) => ⟨cs, some er, updateTable table sinkId e2, none, false⟩
      | (cs, none, e2) => ⟨cs, none, updateTable table sinkId e2, some data, false⟩
  else ⟨[], none, table, none, false⟩

/-- Arguments of one mesh send, as handed by IPV6Sink.send_data to the
    sink SDK handle: destination node, source endpoint 66, destination
    endpoint 66, qos 1, hop limit 0, the payload, no release flag, zero
    initial delay. -/
structure SendCall where
  dstNode : Nat
  srcEp : Nat
  dstEp : Nat
  qos : Nat
  hopLimit : Nat
  payload : List Nat
  releaseFlag : Bool
  initialDelay : Nat
deriving DecidableEq, Repr

/-- Variables of the TUN reader loop that survive from one iteration to
    the next: none models a name never bound, whose use raises NameError. -/
structure TunState where
  srcAddr : Option Ipv6Add
  dstAddr : Option Ipv6Add
deriving DecidableEq, Repr

/-- Tail of one TUN loop iteration after the address parsing block: the
    log line evaluates the sink and node getters of the destination
    (raising on a malformed address), link-local multicast destinations
    are dropped, and the first sink whose mesh address equals the
    destination sink address receives the full packet. -/
def tunTail (sinks : List SinkEntry) (dst : Ipv6Add) (pkt : List Nat) :
    Except PyErr (Option SendCall) :=
  match wirepasSinkAdd dst with
  | .error e => .error e
  | .ok sinkVal =>
    match wirepasNodeAdd dst with
    | .error e => .error e
    | .ok nodeVal =>
      match startWithPfx dst [0xff, 0x02] with
      | .error e => .error e
      | .ok true => .ok none
      | .ok false =>
        match sinks.find? (fun s => s.wpAddress = sinkVal) with
        | some _ => .ok (some ⟨nodeVal, 66, 66, 1, 0, pkt, false, 0⟩)
        | none => .ok none

/-- One iteration of the TUN reader loop in IPV6Transport.start: read a
    packet, index byte 6 (IndexError on a shorter read), drop unsupported
    next headers, then try to parse the source and destination addresses.
    A ValueError there is only logged: the bindings keep whatever value a
    previous iteration gave them and execution falls through to the tail,
    raising NameError when a needed binding never existed. -/
def tunIteration (sinks : List SinkEntry) (st : TunState) (pkt : List Nat) :
    Except PyErr (TunState × Option SendCall) :=
  if pkt.length < 7 then .error .indexErr
  else
    let nh := pkt.getD 6 0
    if nh ≠ 58 ∧ nh ≠ 17 then .ok (st, none)
    else
      let st2 :=
        match mkIpv6Add (pySlice pkt 8 24) 128 with
        | .error _ => st
        | .ok s =>
          match mkIpv6Add (pySlice pkt 24 40) 128 with
          | .error _ => { st with srcAddr := some s }
          | .ok d => ⟨some s, some d⟩
      match st2.srcAddr, st2.dstAddr with
      | some _, some d => (tunTail sinks d pkt).map (fun oc => (st2, oc))
      | _, _ => .error .nameErr

/-- Send performed by one loop iteration, none when the iteration dropped
    the packet or raised. -/
def sendOf (r : Except PyErr (TunState × Option SendCall)) : Option SendCall :=
  match r with
  | .ok (_, s) => s
  | .error _ => none

/-- Predicate used to reason about the format output: true when the
    string has no two adjacent colon characters, so that a split on the
    double-colon separator returns it whole. -/
def noDC : List Char → Bool
  | [] => true
  | [_] => true
  | a :: b :: rest => !(a == ':' && b == ':') && noDC (b :: rest)

theorem nibble_high_of_lt16 (h : Nat) (hh : h < 16) : (h &&& 0xf0) >>> 4 = 0 := by
  interval_cases h <;> decide

theorem nibble_low_of_lt16 (h : Nat) (hh : h < 16) : h &&& 0xf = h := by
  interval_cases h <;> decide

theorem parseEntries_congr_fuel (f1 : Nat) : ∀ (l : List Nat) (f2 : Nat)
    (np om : Option Ipv6Add), l.length ≤ f1 → l.length ≤ f2 →
    parseEntries f1 l np om = parseEntries f2 l np om := by
  induction f1 with
  | zero =>
    intro l f2 np om h1 _
    have : l = [] := List.eq_nil_of_length_eq_zero (Nat.le_zero.mp h1)
    subst this
    simp [parseEntries]
  | succ g ih =>
    intro l f2 np om h1 h2
    match l, f2 with
    | [], _ => simp [parseEntries]
    | e :: rest, 0 => simp at h2
    | e :: rest, f + 1 =>
      simp only [List.length_cons, Nat.add_le_add_iff_right] at h1 h2
      simp only [parseEntries]
      split
      · split
        · rfl
        · exact ih _ _ _ _ (by simp [List.length_drop]; omega) (by simp [List.length_drop]; omega)
      · split
        · rfl
        · exact ih _ _ _ _ (by simp [List.length_drop]; omega) (by simp [List.length_drop]; omega)

theorem parseEntries_step_pfx (s : Nat) (p rest : List Nat) (np om : Option Ipv6Add)
    (fuel : Nat) (hs : (s &&& 0x80) >>> 7 = 0) (hp : p.length = 8)
    (hf : (s :: p ++ rest).length ≤ fuel) :
    parseEntries fuel (s :: p ++ rest) np om =
      parseEntries rest.length rest
        (match np with
         | some _ => np
         | none => some ⟨p, 64⟩) om := by
  match fuel with
  | 0 => simp at hf
  | g + 1 =>
    simp only [List.length_cons, List.length_append, hp] at hf
    have h8 : ¬ ((p ++ rest).length < 8) := by simp [List.length_append, hp]
    have htake : (p ++ rest).take 8 = p := by rw [← hp]; exact List.take_left p rest
    have hdrop : (p ++ rest).drop 8 = rest := by rw [← hp]; exact List.drop_left p rest
    simp only [parseEntries, hs, if_true, if_pos rfl, List.append_eq]
    rw [if_neg h8, htake, hdrop]
    exact parseEntries_congr_fuel g rest rest.length _ _ (by omega) (Nat.le_refl _)

theorem parseEntries_step_om (s : Nat) (a rest : List Nat) (np om : Option Ipv6Add)
    (fuel : Nat) (hs : (s &&& 0x80) >>> 7 ≠ 0) (ha : a.length = 16)
    (hf : (s :: a ++ rest).length ≤ fuel) :
    parseEntries fuel (s :: a ++ rest) np om =
      parseEntries rest.length rest np
        (match om with
         | some _ => om
         | none => some ⟨a, 128⟩) := by
  match fuel with
  | 0 => simp at hf
  | g + 1 =>
    simp only [List.length_cons, List.length_append, ha] at hf
    have h16 : ¬ ((a ++ rest).length < 16) := by simp [List.length_append, ha]
    have htake : (a ++ rest).take 16 = a := by rw [← ha]; exact List.take_left a rest
    have hdrop : (a ++ rest).drop 16 = rest := by rw [← ha]; exact List.drop_left a rest
    simp only [parseEntries, if_neg hs, List.append_eq]
    rw [if_neg h16, htake, hdrop]
    exact parseEntries_congr_fuel g rest rest.length _ _ (by omega) (Nat.le_refl _)

theorem parseEntries_last_pfx (s : Nat) (p : List Nat) (np om : Option Ipv6Add)
    (fuel : Nat) (hs : (s &&& 0x80) >>> 7 = 0) (hp : p.length = 8)
    (hf : (s :: p).length ≤ fuel) :
    parseEntries fuel (s :: p) np om =
      .ok (match np with
           | some _ => np
           | none => some ⟨p, 64⟩, om) := by
  match fuel with
  | 0 => simp at hf
  | g + 1 =>
    have h8 : ¬ (p.length < 8) := by omega
    simp only [parseEntries, hs, if_true, if_pos rfl]
    rw [if_neg h8, List.take_of_length_le (by omega), List.drop_of_length_le (by omega)]
    simp [parseEntries]

theorem parseEntries_last_om (s : Nat) (a : List Nat) (np om : Option Ipv6Add)
    (fuel : Nat) (hs : (s &&& 0x80) >>> 7 ≠ 0) (ha : a.length = 16)
    (hf : (s :: a).length ≤ fuel) :
    parseEntries fuel (s :: a) np om =
      .ok (np, match om with
               | some _ => om
               | none => some ⟨a, 128⟩) := by
  match fuel with
  | 0 => simp at hf
  | g + 1 =>
    have h16 : ¬ (a.length < 16) := by omega
    simp only [parseEntries, if_neg hs]
    rw [if_neg h16, List.take_of_length_le (by omega), List.drop_of_length_le (by omega)]
    simp [parseEntries]

theorem fromBytes_cons (h : Nat) (rest : List Nat) (hh : h < 16) :
    fromBytes (h :: rest) =
      (parseEntries rest.length rest none none).map (fun po => ⟨h, po.1, po.2⟩) := by
  simp [fromBytes, nibble_high_of_lt16 h hh, nibble_low_of_lt16 h hh]

/-- Claim C2: during sink attach, a current application configuration
    whose type-66 entry decodes as a NetworkConfig with nonce n is
    rewritten with the discovered prefix, the off-mesh service overwritten
    only when newly supplied and kept otherwise, and nonce (n+1) mod 16;
    a missing entry, a non-TLV blob (both surfacing as a missing entry of
    the empty envelope) or a version mismatch instead yield a fresh
    NetworkConfig with nonce 0 carrying the discovered prefix and the
    supplied off-mesh service. -/
theorem c2_attach_config_update (b : List Nat) (p : Ipv6Add) (o : Option Ipv6Add) :
    (∀ cfg, fromBytes b = .ok cfg →
      computeNewIpv6Config (some b) p o =
        .ok ⟨(cfg.nonce + 1) % 16, some p,
             match o with
             | some _ => o
             | none => cfg.offMeshService⟩) ∧
    computeNewIpv6Config none p o = .ok ⟨0, some p, o⟩ ∧
    (fromBytes b = .error .valueErr →
      computeNewIpv6Config (some b) p o = .ok ⟨0, some p, o⟩) := by
  refine ⟨fun cfg hc => ?_, rfl, fun hv => ?_⟩
  · simp [computeNewIpv6Config, hc]
  · simp [computeNewIpv6Config, hv, freshConfig]

/-- Witness for C2 at the nonce-bump scenario of the specification: an
    existing record with nonce 7 is rewritten to nonce 8. -/
theorem c2_attach_config_update_witness :
    computeNewIpv6Config (some [7]) ⟨List.replicate 8 0, 64⟩ none =
      .ok ⟨(7 + 1) % 16, some ⟨List.replicate 8 0, 64⟩, none⟩ :=
  (c2_attach_config_update [7] ⟨List.replicate 8 0, 64⟩ none).1 ⟨7, none, none⟩ rfl

/-- Counterexample to claim C6: on an empty type-66 entry the decode
    raises IndexError, which the attach path does not catch, so no fresh
    NetworkConfig is substituted and the attach aborts instead. -/
theorem c6_empty_entry_cx :
    computeNewIpv6Config (some []) ⟨List.replicate 8 0, 64⟩ none = .error .indexErr := rfl

/-- Claim C6 as amended: decode of an empty byte string fails with an
    IndexError and decode of any input whose version nibble is not zero
    fails with a ValueError; the sink-attach path substitutes a fresh
    NetworkConfig only in the version-mismatch case, while the IndexError
    of the empty entry escapes the attach path uncaught. -/
theorem c6_empty_and_version (b0 : Nat) (rest : List Nat) (p : Ipv6Add)
    (o : Option Ipv6Add) (hv : (b0 &&& 0xf0) >>> 4 ≠ 0) :
    fromBytes [] = .error .indexErr ∧
    fromBytes (b0 :: rest) = .error .valueErr ∧
    computeNewIpv6Config (some (b0 :: rest)) p o = .ok (freshConfig p o) ∧
    computeNewIpv6Config (some []) p o = .error .indexErr := by
  refine ⟨rfl, ?_, ?_, rfl⟩
  · simp [fromBytes, hv]
  · simp [computeNewIpv6Config, fromBytes, hv]

/-- Witness for C6 as amended, at version nibble 1. -/
theorem c6_empty_and_version_witness :
    ((0x17 &&& 0xf0) >>> 4 ≠ 0) ∧
    (fromBytes [] = .error .indexErr ∧
     fromBytes [0x17] = .error .valueErr ∧
     computeNewIpv6Config (some [0x17]) ⟨List.replicate 8 0, 64⟩ none =
       .ok (freshConfig ⟨List.replicate 8 0, 64⟩ none) ∧
     computeNewIpv6Config (some []) ⟨List.replicate 8 0, 64⟩ none = .error .indexErr) :=
  ⟨by decide, c6_empty_and_version 0x17 [] ⟨List.replicate 8 0, 64⟩ none (by decide)⟩

/-- Counterexample to claim C5: an input with two prefix entries does not
    fail to decode; the source only logs the repetition and keeps the
    first entry. -/
theorem c5_duplicate_entry_cx :
    fromBytes (0 :: (0 :: List.replicate 8 1) ++ (0 :: List.replicate 8 2)) =
      .ok ⟨0, some ⟨List.replicate 8 1, 64⟩, none⟩ := rfl

/-- Claim C5 as amended: an input with repeated prefix entries or repeated
    off-mesh entries decodes successfully, keeping the first entry of each
    kind and skipping the rest; decode does fail with ValueError whenever
    the entry reached by the scan has fewer than its required bytes
    remaining, nine for a prefix entry and seventeen for an off-mesh
    entry. -/
theorem c5_duplicates_ok_short_fails (h : Nat) (p1 p2 a1 a2 : List Nat)
    (e1 e2 fuel : Nat) (r1 r2 : List Nat) (np om : Option Ipv6Add)
    (hh : h < 16) (hp1 : p1.length = 8) (hp2 : p2.length = 8)
    (ha1 : a1.length = 16) (ha2 : a2.length = 16)
    (he1 : (e1 &&& 0x80) >>> 7 = 0) (hr1 : r1.length < 8)
    (he2 : (e2 &&& 0x80) >>> 7 ≠ 0) (hr2 : r2.length < 16) :
    fromBytes (h :: (0 :: p1) ++ (0 :: p2)) = .ok ⟨h, some ⟨p1, 64⟩, none⟩ ∧
    fromBytes (h :: (0x80 :: a1) ++ (0x80 :: a2)) = .ok ⟨h, none, some ⟨a1, 128⟩⟩ ∧
    parseEntries (fuel + 1) (e1 :: r1) np om = .error .valueErr ∧
    parseEntries (fuel + 1) (e2 :: r2) np om = .error .valueErr := by
  refine ⟨?_, ?_, ?_, ?_⟩
  · rw [List.cons_append, fromBytes_cons h _ hh,
      parseEntries_step_pfx 0 p1 (0 :: p2) none none _ (by decide) hp1 (Nat.le_refl _),
      parseEntries_last_pfx 0 p2 (some ⟨p1, 64⟩) none _ (by decide) hp2 (Nat.le_refl _)]
    rfl
  · rw [List.cons_append, fromBytes_cons h _ hh,
      parseEntries_step_om 0x80 a1 (0x80 :: a2) none none _ (by decide) ha1 (Nat.le_refl _),
      parseEntries_last_om 0x80 a2 none (some ⟨a1, 128⟩) _ (by decide) ha2 (Nat.le_refl _)]
    rfl
  · simp only [parseEntries, he1, if_true, if_pos rfl]
    rw [if_pos hr1]
  · simp only [parseEntries, if_neg he2]
    rw [if_pos hr2]

/-- Witness for C5 as amended, with concrete duplicate records and
    concrete short entries. -/
theorem c5_duplicates_ok_short_fails_witness :
    (5 < 16 ∧ (List.replicate 8 1).length = 8 ∧ (List.replicate 8 2).length = 8 ∧
     (List.replicate 16 3).length = 16 ∧ (List.replicate 16 4).length = 16 ∧
     (0 &&& 0x80) >>> 7 = 0 ∧ ([] : List Nat).length < 8 ∧
     (0x80 &&& 0x80) >>> 7 ≠ 0 ∧ [9, 9].length < 16) ∧
    (fromBytes (5 :: (0 :: List.replicate 8 1) ++ (0 :: List.replicate 8 2)) =
       .ok ⟨5, some ⟨List.replicate 8 1, 64⟩, none⟩ ∧
     fromBytes (5 :: (0x80 :: List.replicate 16 3) ++ (0x80 :: List.replicate 16 4)) =
       .ok ⟨5, none, some ⟨List.replicate 16 3, 128⟩⟩ ∧
     parseEntries (0 + 1) [0] none none = .error .valueErr ∧
     parseEntries (0 + 1) (0x80 :: [9, 9]) none none = .error .valueErr) :=
  ⟨by decide,
   c5_duplicates_ok_short_fails 5 (List.replicate 8 1) (List.replicate 8 2)
     (List.replicate 16 3) (List.replicate 16 4) 0 0x80 0 [] [9, 9] none none
     (by decide) (by decide) (by decide) (by decide) (by decide)
     (by decide) (by decide) (by decide) (by decide)⟩

/-- Counterexample to claim C4: a record whose off-mesh entry precedes its
    prefix entry decodes cleanly, but re-encoding emits the prefix entry
    first, so the bytes are not reproduced. -/
theorem c4_order_cx :
    (fromBytes (0x07 :: (0x80 :: List.replicate 16 3) ++ (0 :: List.replicate 8 1)) >>=
        toBytes) =
      .ok (0x07 :: (0 :: List.replicate 8 1) ++ (0x80 :: List.replicate 16 3)) ∧
    (0x07 :: (0 :: List.replicate 8 1) ++ (0x80 :: List.replicate 16 3)) ≠
      (0x07 :: (0x80 :: List.replicate 16 3) ++ (0 :: List.replicate 8 1)) :=
  ⟨rfl, by decide⟩

/-- Claim C4 as amended: re-encoding reproduces the input exactly for
    inputs in canonical form, namely a version-zero header followed by at
    most one prefix entry with selector byte exactly 0x00 and at most one
    off-mesh entry with selector byte exactly 0x80, with the prefix entry
    first; the nonce is unchanged. Inputs with other selector bytes, the
    opposite entry order or repeated entries decode to the same record and
    therefore re-encode to the canonical bytes instead of themselves. -/
theorem c4_canonical_roundtrip (h : Nat) (p a : List Nat)
    (hh : h < 16) (hp : p.length = 8) (ha : a.length = 16) :
    (fromBytes [h] >>= toBytes) = .ok [h] ∧
    (fromBytes (h :: 0 :: p) >>= toBytes) = .ok (h :: 0 :: p) ∧
    (fromBytes (h :: 0x80 :: a) >>= toBytes) = .ok (h :: 0x80 :: a) ∧
    (fromBytes (h :: (0 :: p) ++ (0x80 :: a)) >>= toBytes) =
      .ok (h :: (0 :: p) ++ (0x80 :: a)) := by
  have htp : p.take 8 = p := List.take_of_length_le (le_of_eq hp)
  refine ⟨?_, ?_, ?_, ?_⟩
  · rw [fromBytes_cons h [] hh]
    simp [parseEntries, toBytes, Nat.zero_shiftLeft, Except.map, Bind.bind, Except.bind]
  · rw [fromBytes_cons h (0 :: p) hh,
      parseEntries_last_pfx 0 p none none _ (by decide) hp (Nat.le_refl _)]
    simp [toBytes, addrPfx, htp, Nat.zero_shiftLeft, Except.map, Bind.bind, Except.bind,
      show ((64 : Nat) &&& 7) = 0 from by decide]
  · rw [fromBytes_cons h (0x80 :: a) hh,
      parseEntries_last_om 0x80 a none none _ (by decide) ha (Nat.le_refl _)]
    simp [toBytes, Nat.zero_shiftLeft, Except.map, Bind.bind, Except.bind]
  · rw [List.cons_append, fromBytes_cons h _ hh,
      parseEntries_step_pfx 0 p (0x80 :: a) none none _ (by decide) hp (Nat.le_refl _),
      parseEntries_last_om 0x80 a (some ⟨p, 64⟩) none _ (by decide) ha (Nat.le_refl _)]
    simp [toBytes, addrPfx, htp, Nat.zero_shiftLeft, Except.map, Bind.bind, Except.bind,
      show ((64 : Nat) &&& 7) = 0 from by decide]

/-- Witness for C4 as amended, at a concrete canonical record. -/
theorem c4_canonical_roundtrip_witness :
    (7 < 16 ∧ (List.replicate 8 1).length = 8 ∧ (List.replicate 16 3).length = 16) ∧
    ((fromBytes [7] >>= toBytes) = .ok [7] ∧
     (fromBytes (7 :: 0 :: List.replicate 8 1) >>= toBytes) =
       .ok (7 :: 0 :: List.replicate 8 1) ∧
     (fromBytes (7 :: 0x80 :: List.replicate 16 3) >>= toBytes) =
       .ok (7 :: 0x80 :: List.replicate 16 3) ∧
     (fromBytes (7 :: (0 :: List.replicate 8 1) ++ (0x80 :: List.replicate 16 3)) >>=
         toBytes) =
       .ok (7 :: (0 :: List.replicate 8 1) ++ (0x80 :: List.replicate 16 3))) :=
  ⟨by decide,
   c4_canonical_roundtrip 7 (List.replicate 8 1) (List.replicate 16 3)
     (by decide) (by decide) (by decide)⟩

theorem and255_eq_mod (x : Nat) : x &&& 255 = x % 256 :=
  Nat.and_pow_two_sub_one_eq_mod x 8

theorem beVal_four (s : Nat) (hs : s < 2 ^ 32) :
    beVal [s >>> 24 &&& 255, s >>> 16 &&& 255, s >>> 8 &&& 255, s &&& 255] = s := by
  simp only [beVal, List.foldl_cons, List.foldl_nil, and255_eq_mod,
    Nat.shiftRight_eq_div_pow]
  norm_num
  omega

/-- Claim C10: the address constructor accepts any buffer holding at
    least prefix_len / 8 bytes; decoding a prefix entry yields an 8-byte
    address with prefix length 64; and the two derived constructors
    applied to such an 8-byte /64 prefix produce a correct 12-byte /96
    and 16-byte /128 address respectively, the slice assignments growing
    the buffer, with the sink and node fields recoverable from the
    result. -/
theorem c10_short_buffer_addresses (h : Nat) (p : List Nat) (s n : Nat)
    (hh : h < 16) (hp : p.length = 8) (hs : s < 2 ^ 32) (hn : n < 2 ^ 32) :
    (∀ (bts : List Nat) (plen : Nat), plen ≤ 8 * bts.length →
      mkIpv6Add bts plen = .ok ⟨bts, plen⟩) ∧
    fromBytes (h :: 0 :: p) = .ok ⟨h, some ⟨p, 64⟩, none⟩ ∧
    (fromPrefixAndSinkAdd ⟨p, 64⟩ s =
       .ok ⟨p ++ [s >>> 24 &&& 255, s >>> 16 &&& 255, s >>> 8 &&& 255, s &&& 255], 96⟩ ∧
     (p ++ [s >>> 24 &&& 255, s >>> 16 &&& 255, s >>> 8 &&& 255, s &&& 255]).length = 12) ∧
    (fromPrefixSinkAddAndSinkNode ⟨p, 64⟩ s n =
       .ok ⟨p ++ [s >>> 24 &&& 255, s >>> 16 &&& 255, s >>> 8 &&& 255, s &&& 255] ++
              [n >>> 24 &&& 255, n >>> 16 &&& 255, n >>> 8 &&& 255, n &&& 255], 128⟩ ∧
     (p ++ [s >>> 24 &&& 255, s >>> 16 &&& 255, s >>> 8 &&& 255, s &&& 255] ++
        [n >>> 24 &&& 255, n >>> 16 &&& 255, n >>> 8 &&& 255, n &&& 255]).length = 16 ∧
     wirepasSinkAdd
       ⟨p ++ [s >>> 24 &&& 255, s >>> 16 &&& 255, s >>> 8 &&& 255, s &&& 255] ++
          [n >>> 24 &&& 255, n >>> 16 &&& 255, n >>> 8 &&& 255, n &&& 255], 128⟩ = .ok s ∧
     wirepasNodeAdd
       ⟨p ++ [s >>> 24 &&& 255, s >>> 16 &&& 255, s >>> 8 &&& 255, s &&& 255] ++
          [n >>> 24 &&& 255, n >>> 16 &&& 255, n >>> 8 &&& 255, n &&& 255], 128⟩ = .ok n) := by
  have sb4 : ([s >>> 24 &&& 255, s >>> 16 &&& 255, s >>> 8 &&& 255, s &&& 255] :
      List Nat).length = 4 := rfl
  have nb4 : ([n >>> 24 &&& 255, n >>> 16 &&& 255, n >>> 8 &&& 255, n &&& 255] :
      List Nat).length = 4 := rfl
  have hps : (p ++ [s >>> 24 &&& 255, s >>> 16 &&& 255, s >>> 8 &&& 255, s &&& 255]).length
      = 12 := by simp [hp]
  have ht8 : p.take 8 = p := List.take_of_length_le (by omega)
  have hd12 : p.drop 12 = [] := List.drop_of_length_le (by omega)
  refine ⟨fun bts plen hle => ?_, ?_, ⟨?_, hps⟩, ?_, ?_, ?_, ?_⟩
  · simp [mkIpv6Add]; omega
  · rw [fromBytes_cons h (0 :: p) hh,
      parseEntries_last_pfx 0 p none none _ (by decide) hp (Nat.le_refl _)]
    rfl
  · simp only [fromPrefixAndSinkAdd, intToBytesBE4, if_pos hs,
      if_neg (by decide : ¬ ((64 : Nat) ≠ 64)), pySetSlice, ht8, hd12, List.append_nil]
    rw [mkIpv6Add, if_neg (by simp [hp])]
  · simp only [fromPrefixSinkAddAndSinkNode, intToBytesBE4, if_pos hs, if_pos hn,
      if_neg (by decide : ¬ ((64 : Nat) ≠ 64)), pySetSlice, ht8, hd12, List.append_nil]
    rw [List.take_of_length_le (le_of_eq hps), List.drop_of_length_le (by omega),
      List.append_nil, mkIpv6Add, if_neg (by simp [hp])]
  · simp [hp]
  · have h1 : ((p ++ [s >>> 24 &&& 255, s >>> 16 &&& 255, s >>> 8 &&& 255, s &&& 255]) ++
        [n >>> 24 &&& 255, n >>> 16 &&& 255, n >>> 8 &&& 255, n &&& 255]).take 12 =
        p ++ [s >>> 24 &&& 255, s >>> 16 &&& 255, s >>> 8 &&& 255, s &&& 255] := by
      rw [← hps]; exact List.take_left _ _
    have h2 : (p ++ [s >>> 24 &&& 255, s >>> 16 &&& 255, s >>> 8 &&& 255, s &&& 255]).drop 8 =
        [s >>> 24 &&& 255, s >>> 16 &&& 255, s >>> 8 &&& 255, s &&& 255] := by
      rw [← hp]; exact List.drop_left _ _
    rw [wirepasSinkAdd, if_neg (by norm_num), pySlice, h1, h2, pyUnpackU32, if_pos sb4,
      beVal_four s hs]
  · have h3 : ((p ++ [s >>> 24 &&& 255, s >>> 16 &&& 255, s >>> 8 &&& 255, s &&& 255]) ++
        [n >>> 24 &&& 255, n >>> 16 &&& 255, n >>> 8 &&& 255, n &&& 255]).take 16 =
        (p ++ [s >>> 24 &&& 255, s >>> 16 &&& 255, s >>> 8 &&& 255, s &&& 255]) ++
        [n >>> 24 &&& 255, n >>> 16 &&& 255, n >>> 8 &&& 255, n &&& 255] :=
      List.take_of_length_le (by simp [hp])
    have h4 : ((p ++ [s >>> 24 &&& 255, s >>> 16 &&& 255, s >>> 8 &&& 255, s &&& 255]) ++
        [n >>> 24 &&& 255, n >>> 16 &&& 255, n >>> 8 &&& 255, n &&& 255]).drop 12 =
        [n >>> 24 &&& 255, n >>> 16 &&& 255, n >>> 8 &&& 255, n &&& 255] := by
      rw [← hps]; exact List.drop_left _ _
    rw [wirepasNodeAdd, if_neg (by norm_num), pySlice, h3, h4, pyUnpackU32, if_pos nb4,
      beVal_four n hn]

/-- Witness for C10 at a concrete 8-byte /64 prefix, sink address
    0x0a0b0c0d and node address 1. -/
theorem c10_short_buffer_addresses_witness :
    (5 < 16 ∧ (List.replicate 8 9).length = 8 ∧ 0x0a0b0c0d < 2 ^ 32 ∧ 1 < 2 ^ 32) ∧
    ((∀ (bts : List Nat) (plen : Nat), plen ≤ 8 * bts.length →
       mkIpv6Add bts plen = .ok ⟨bts, plen⟩) ∧
     fromBytes (5 :: 0 :: List.replicate 8 9) =
       .ok ⟨5, some ⟨List.replicate 8 9, 64⟩, none⟩ ∧
     (fromPrefixAndSinkAdd ⟨List.replicate 8 9, 64⟩ 0x0a0b0c0d =
        .ok ⟨List.replicate 8 9 ++
               [0x0a0b0c0d >>> 24 &&& 255, 0x0a0b0c0d >>> 16 &&& 255,
                0x0a0b0c0d >>> 8 &&& 255, 0x0a0b0c0d &&& 255], 96⟩ ∧
      (List.replicate 8 9 ++
         [0x0a0b0c0d >>> 24 &&& 255, 0x0a0b0c0d >>> 16 &&& 255,
          0x0a0b0c0d >>> 8 &&& 255, 0x0a0b0c0d &&& 255]).length = 12) ∧
     (fromPrefixSinkAddAndSinkNode ⟨List.replicate 8 9, 64⟩ 0x0a0b0c0d 1 =
        .ok ⟨List.replicate 8 9 ++
               [0x0a0b0c0d >>> 24 &&& 255, 0x0a0b0c0d >>> 16 &&& 255,
                0x0a0b0c0d >>> 8 &&& 255, 0x0a0b0c0d &&& 255] ++
               [1 >>> 24 &&& 255, 1 >>> 16 &&& 255, 1 >>> 8 &&& 255, 1 &&& 255], 128⟩ ∧
      (List.replicate 8 9 ++
         [0x0a0b0c0d >>> 24 &&& 255, 0x0a0b0c0d >>> 16 &&& 255,
          0x0a0b0c0d >>> 8 &&& 255, 0x0a0b0c0d &&& 255] ++
         [1 >>> 24 &&& 255, 1 >>> 16 &&& 255, 1 >>> 8 &&& 255, 1 &&& 255]).length = 16 ∧
      wirepasSinkAdd
        ⟨List.replicate 8 9 ++
           [0x0a0b0c0d >>> 24 &&& 255, 0x0a0b0c0d >>> 16 &&& 255,
            0x0a0b0c0d >>> 8 &&& 255, 0x0a0b0c0d &&& 255] ++
           [1 >>> 24 &&& 255, 1 >>> 16 &&& 255, 1 >>> 8 &&& 255, 1 &&& 255], 128⟩ =
        .ok 0x0a0b0c0d ∧
      wirepasNodeAdd
        ⟨List.replicate 8 9 ++
           [0x0a0b0c0d >>> 24 &&& 255, 0x0a0b0c0d >>> 16 &&& 255,
            0x0a0b0c0d >>> 8 &&& 255, 0x0a0b0c0d &&& 255] ++
           [1 >>> 24 &&& 255, 1 >>> 16 &&& 255, 1 >>> 8 &&& 255, 1 &&& 255], 128⟩ =
        .ok 1)) :=
  ⟨⟨by decide, by decide, by decide, by decide⟩,
   c10_short_buffer_addresses 5 (List.replicate 8 9) 0x0a0b0c0d 1
     (by decide) (by decide) (by decide) (by decide)⟩

/-- Claim C9: an inbound frame with both endpoints 66 whose sink id is
    not in the sink table is still written verbatim to the TUN; the
    missing sink only makes the NDP-proxy refresh a logged no-op, with no
    command issued, no exception and no table change. -/
theorem c9_inbound_missing_sink (ok : Cmd → Bool) (table : List (String × SinkEntry))
    (sinkId : String) (src : Nat) (data : List Nat)
    (hmiss : lookupSink table sinkId = none) :
    onDataReceived ok table sinkId src 66 66 data = ⟨[], none, table, some data, true⟩ := by
  simp [onDataReceived, hmiss]

/-- Witness for C9 on an empty sink table. -/
theorem c9_inbound_missing_sink_witness :
    lookupSink [] "s0" = none ∧
    onDataReceived (fun _ => true) [] "s0" 2 66 66 [1, 2, 3] =
      ⟨[], none, [], some [1, 2, 3], true⟩ :=
  ⟨rfl, c9_inbound_missing_sink (fun _ => true) [] "s0" 2 [1, 2, 3] rfl⟩

theorem lookupSink_updateTable (table : List (String × SinkEntry)) (name : String)
    (e : SinkEntry) (h : (lookupSink table name).isSome) :
    lookupSink (updateTable table name e) name = some e := by
  induction table with
  | nil => simp [lookupSink] at h
  | cons kv t ih =>
    by_cases hk : kv.1 = name
    · simp [lookupSink, updateTable, List.find?, hk]
    · simp only [lookupSink, updateTable, List.map_cons, List.find?, if_neg hk] at h ⊢
      simp only [hk, decide_False] at h ⊢
      exact ih h

/-- Counterexample to claim C7: when the route removal fails during
    detach, the RuntimeError raised by the command helper is not caught,
    the remaining cleanup steps do not run, and the sink entry stays in
    the table. -/
theorem c7_cleanup_abort_cx :
    removeSinkEntry (fun c => match c with | Cmd.routeDel _ => false | _ => true)
      [("sink0", ⟨1, ⟨List.replicate 8 0, 64⟩, ⟨List.replicate 12 0, 96⟩,
                  ⟨List.replicate 16 0, 128⟩, [0xffffffff]⟩)] "sink0" =
      ([.routeDel ⟨List.replicate 12 0, 96⟩], some .runtimeErr,
       [("sink0", ⟨1, ⟨List.replicate 8 0, 64⟩, ⟨List.replicate 12 0, 96⟩,
                   ⟨List.replicate 16 0, 128⟩, [0xffffffff]⟩)]) := by decide

/-- Claim C7 as amended: an OS networking command failure during detach
    cleanup raises a RuntimeError that _remove_sink_entry does not catch,
    so the remaining cleanup steps are skipped and the sink entry is not
    evicted from the table; this holds for the route removal, the address
    removal and the NDP proxy deletion alike. Only an unknown sink id is
    logged and tolerated. -/
theorem c7_detach_failure_aborts (ok : Cmd → Bool) (table : List (String × SinkEntry))
    (name : String) (e : SinkEntry) (hfind : lookupSink table name = some e) :
    (ok (.routeDel e.sinkPfx) = false →
      removeSinkEntry ok table name = ([.routeDel e.sinkPfx], some .runtimeErr, table)) ∧
    (ok (.routeDel e.sinkPfx) = true → ok (.addrDel e.ifaceAddr) = false →
      removeSinkEntry ok table name =
        ([.routeDel e.sinkPfx, .addrDel e.ifaceAddr], some .runtimeErr, table)) ∧
    (∀ (node : Nat) (rest : List Nat) (a : Ipv6Add),
      e.neighProxy = node :: rest →
      fromPrefixSinkAddAndSinkNode e.nwPfx e.wpAddress node = .ok a →
      ok (.routeDel e.sinkPfx) = true → ok (.addrDel e.ifaceAddr) = true →
      ok (.neighDel a) = false →
      removeSinkEntry ok table name =
        ([.routeDel e.sinkPfx, .addrDel e.ifaceAddr, .neighDel a], some .runtimeErr,
         updateTable table name e) ∧
      lookupSink (updateTable table name e) name = some e) := by
  refine ⟨fun h1 => ?_, fun h1 h2 => ?_, fun node rest a hnp ha h1 h2 h3 => ⟨?_, ?_⟩⟩
  · simp [removeSinkEntry, hfind, h1]
  · simp [removeSinkEntry, hfind, h1, h2]
  · simp only [removeSinkEntry, hfind, h1, h2, not_true, if_neg, ite_false,
      stopSink, hnp, stopLoop, removeNdpEntry, ha, h3]
    simp [hnp, h3]
  · exact lookupSink_updateTable table name e (by simp [hfind])

/-- Witness for C7 as amended, on a one-sink table with every command
    failing: the route removal aborts the detach at once. -/
theorem c7_detach_failure_aborts_witness :
    lookupSink [("sink0", ⟨1, ⟨List.replicate 8 0, 64⟩, ⟨List.replicate 12 0, 96⟩,
                  ⟨List.replicate 16 0, 128⟩, [3]⟩)] "sink0" =
      some ⟨1, ⟨List.replicate 8 0, 64⟩, ⟨List.replicate 12 0, 96⟩,
            ⟨List.replicate 16 0, 128⟩, [3]⟩ ∧
    ((false = false →
       removeSinkEntry (fun _ => false)
         [("sink0", ⟨1, ⟨List.replicate 8 0, 64⟩, ⟨List.replicate 12 0, 96⟩,
                     ⟨List.replicate 16 0, 128⟩, [3]⟩)] "sink0" =
         ([.routeDel ⟨List.replicate 12 0, 96⟩], some .runtimeErr,
          [("sink0", ⟨1, ⟨List.replicate 8 0, 64⟩, ⟨List.replicate 12 0, 96⟩,
                      ⟨List.replicate 16 0, 128⟩, [3]⟩)])) ∧
     (false = true → false = false →
       removeSinkEntry (fun _ => false)
         [("sink0", ⟨1, ⟨List.replicate 8 0, 64⟩, ⟨List.replicate 12 0, 96⟩,
                     ⟨List.replicate 16 0, 128⟩, [3]⟩)] "sink0" =
         ([.routeDel ⟨List.replicate 12 0, 96⟩, .addrDel ⟨List.replicate 16 0, 128⟩],
          some .runtimeErr,
          [("sink0", ⟨1, ⟨List.replicate 8 0, 64⟩, ⟨List.replicate 12 0, 96⟩,
                      ⟨List.replicate 16 0, 128⟩, [3]⟩)])) ∧
     (∀ (node : Nat) (rest : List Nat) (a : Ipv6Add),
       ([3] : List Nat) = node :: rest →
       fromPrefixSinkAddAndSinkNode ⟨List.replicate 8 0, 64⟩ 1 node = .ok a →
       false = true → false = true → false = false →
       removeSinkEntry (fun _ => false)
         [("sink0", ⟨1, ⟨List.replicate 8 0, 64⟩, ⟨List.replicate 12 0, 96⟩,
                     ⟨List.replicate 16 0, 128⟩, [3]⟩)] "sink0" =
         ([.routeDel ⟨List.replicate 12 0, 96⟩, .addrDel ⟨List.replicate 16 0, 128⟩,
           .neighDel a], some .runtimeErr,
          updateTable [("sink0", ⟨1, ⟨List.replicate 8 0, 64⟩, ⟨List.replicate 12 0, 96⟩,
                        ⟨List.replicate 16 0, 128⟩, [3]⟩)] "sink0"
            ⟨1, ⟨List.replicate 8 0, 64⟩, ⟨List.replicate 12 0, 96⟩,
             ⟨List.replicate 16 0, 128⟩, [3]⟩) ∧
       lookupSink (updateTable [("sink0", ⟨1, ⟨List.replicate 8 0, 64⟩,
                     ⟨List.replicate 12 0, 96⟩, ⟨List.replicate 16 0, 128⟩, [3]⟩)] "sink0"
                     ⟨1, ⟨List.replicate 8 0, 64⟩, ⟨List.replicate 12 0, 96⟩,
                      ⟨List.replicate 16 0, 128⟩, [3]⟩) "sink0" =
         some ⟨1, ⟨List.replicate 8 0, 64⟩, ⟨List.replicate 12 0, 96⟩,
               ⟨List.replicate 16 0, 128⟩, [3]⟩)) :=
  ⟨rfl,
   c7_detach_failure_aborts (fun _ => false)
     [("sink0", ⟨1, ⟨List.replicate 8 0, 64⟩, ⟨List.replicate 12 0, 96⟩,
                 ⟨List.replicate 16 0, 128⟩, [3]⟩)] "sink0"
     ⟨1, ⟨List.replicate 8 0, 64⟩, ⟨List.replicate 12 0, 96⟩,
      ⟨List.replicate 16 0, 128⟩, [3]⟩ rfl⟩

theorem take_two_getD (l : List Nat) (hl : 2 ≤ l.length) :
    l.take 2 = [l.getD 0 0, l.getD 1 0] := by
  match l with
  | [] => simp at hl
  | [a] => simp at hl
  | a :: b :: t => rfl

theorem tunTail_closed (sinks : List SinkEntry) (pkt : List Nat) (h40 : 40 ≤ pkt.length) :
    tunTail sinks ⟨pySlice pkt 24 40, 128⟩ pkt =
      .ok (if pkt.getD 24 0 = 255 ∧ pkt.getD 25 0 = 2 then none
           else
             match sinks.find?
                 (fun s => s.wpAddress = beVal (pySlice (pySlice pkt 24 40) 8 12)) with
             | some _ =>
               some ⟨beVal (pySlice (pySlice pkt 24 40) 12 16), 66, 66, 1, 0, pkt, false, 0⟩
             | none => none) := by
  have hdst : (pySlice pkt 24 40).length = 16 := by
    simp [pySlice, List.length_drop, List.length_take]; omega
  have l1 : (pySlice (pySlice pkt 24 40) 8 12).length = 4 := by
    simp [pySlice, List.length_drop, List.length_take]; omega
  have l2 : (pySlice (pySlice pkt 24 40) 12 16).length = 4 := by
    simp [pySlice, List.length_drop, List.length_take]; omega
  have h24 : (pySlice pkt 24 40).getD 0 0 = pkt.getD 24 0 := by
    simp [pySlice, List.getD_eq_getElem?_getD, List.getElem?_drop, List.getElem?_take]
  have h25 : (pySlice pkt 24 40).getD 1 0 = pkt.getD 25 0 := by
    simp [pySlice, List.getD_eq_getElem?_getD, List.getElem?_drop, List.getElem?_take]
  have hmc : ((pySlice pkt 24 40).take 2 = [255, 2]) ↔
      (pkt.getD 24 0 = 255 ∧ pkt.getD 25 0 = 2) := by
    rw [take_two_getD _ (by omega), h24, h25]
    simp
  rw [tunTail, wirepasSinkAdd, if_neg (by norm_num), pyUnpackU32, if_pos l1,
    wirepasNodeAdd, if_neg (by norm_num), pyUnpackU32, if_pos l2,
    startWithPfx, if_neg (by simp [hdst])]
  by_cases hb : pkt.getD 24 0 = 255 ∧ pkt.getD 25 0 = 2
  · rw [if_pos hb]
    have : (pySlice pkt 24 40).take 2 = [255, 2] := hmc.mpr hb
    simp [this]
  · rw [if_neg hb]
    have hx : ¬ ((pySlice pkt 24 40).take 2 = [255, 2]) := fun hx => hb (hmc.mp hx)
    simp only [show ([255, 2] : List Nat).length = 2 from rfl, hx, decide_False]
    cases hfind : sinks.find?
        (fun s => decide (s.wpAddress = beVal (pySlice (pySlice pkt 24 40) 8 12))) <;>
      simp [hfind]

theorem tunIteration_closed (sinks : List SinkEntry) (st : TunState) (pkt : List Nat)
    (h40 : 40 ≤ pkt.length) :
    tunIteration sinks st pkt =
      if pkt.getD 6 0 = 17 ∨ pkt.getD 6 0 = 58 then
        (tunTail sinks ⟨pySlice pkt 24 40, 128⟩ pkt).map
          (fun oc => (⟨some ⟨pySlice pkt 8 24, 128⟩, some ⟨pySlice pkt 24 40, 128⟩⟩, oc))
      else .ok (st, none) := by
  have hlen7 : ¬ (pkt.length < 7) := by omega
  have hsrc : (pySlice pkt 8 24).length = 16 := by
    simp [pySlice, List.length_drop, List.length_take]; omega
  have hdst : (pySlice pkt 24 40).length = 16 := by
    simp [pySlice, List.length_drop, List.length_take]; omega
  have hmk1 : mkIpv6Add (pySlice pkt 8 24) 128 = .ok ⟨pySlice pkt 8 24, 128⟩ := by
    rw [mkIpv6Add, if_neg (by omega)]
  have hmk2 : mkIpv6Add (pySlice pkt 24 40) 128 = .ok ⟨pySlice pkt 24 40, 128⟩ := by
    rw [mkIpv6Add, if_neg (by omega)]
  by_cases hnh : pkt.getD 6 0 = 17 ∨ pkt.getD 6 0 = 58
  · rw [if_pos hnh]
    have hcond : ¬ (pkt.getD 6 0 ≠ 58 ∧ pkt.getD 6 0 ≠ 17) := by tauto
    simp only [tunIteration, if_neg hlen7, if_neg hcond, hmk1, hmk2]
  · rw [if_neg hnh]
    have hcond : pkt.getD 6 0 ≠ 58 ∧ pkt.getD 6 0 ≠ 17 := by tauto
    simp only [tunIteration, if_neg hlen7, if_pos hcond]

/-- Claim C1: for a packet of length between 40 and 2048 read from the
    TUN, the outbound loop performs a mesh send if and only if byte 6 is
    17 or 58, the destination address at bytes 24..40 does not start with
    bytes 0xff 0x02, and some sink in the table has the mesh address
    found big-endian at bytes 8..12 of the destination; a send hands
    send_data the node from bytes 12..16 of the destination, endpoints
    66 and 66, qos 1, hop limit 0 and the full packet as payload, exactly
    once. -/
theorem c1_outbound_send_iff (sinks : List SinkEntry) (st : TunState) (pkt : List Nat)
    (h40 : 40 ≤ pkt.length) (h2048 : pkt.length ≤ 2048) :
    ((sendOf (tunIteration sinks st pkt)).isSome = true ↔
      ((pkt.getD 6 0 = 17 ∨ pkt.getD 6 0 = 58) ∧
       ¬ (pkt.getD 24 0 = 255 ∧ pkt.getD 25 0 = 2) ∧
       ∃ e ∈ sinks, e.wpAddress = beVal (pySlice (pySlice pkt 24 40) 8 12))) ∧
    (∀ sc, sendOf (tunIteration sinks st pkt) = some sc →
      sc = ⟨beVal (pySlice (pySlice pkt 24 40) 12 16), 66, 66, 1, 0, pkt, false, 0⟩) := by
  rw [tunIteration_closed sinks st pkt h40]
  by_cases hnh : pkt.getD 6 0 = 17 ∨ pkt.getD 6 0 = 58
  · rw [if_pos hnh, tunTail_closed sinks pkt h40]
    by_cases hmc : pkt.getD 24 0 = 255 ∧ pkt.getD 25 0 = 2
    · rw [if_pos hmc]
      simp only [sendOf, Except.map]
      exact ⟨iff_of_false (by simp) (fun h => h.2.1 hmc),
        fun sc hsc => Option.noConfusion hsc⟩
    · rw [if_neg hmc]
      cases hfind : sinks.find?
          (fun s => decide (s.wpAddress = beVal (pySlice (pySlice pkt 24 40) 8 12))) with
      | none =>
        have hno : ¬ ∃ e ∈ sinks, e.wpAddress = beVal (pySlice (pySlice pkt 24 40) 8 12) := by
          rintro ⟨e, he, hw⟩
          have hsome : (sinks.find?
              (fun s => decide (s.wpAddress =
                beVal (pySlice (pySlice pkt 24 40) 8 12)))).isSome :=
            List.find?_isSome.mpr ⟨e, he, by simp [hw]⟩
          rw [hfind] at hsome
          simp at hsome
        simp only [sendOf, Except.map, hfind]
        exact ⟨iff_of_false (by simp) (fun h => hno h.2.2),
          fun sc hsc => Option.noConfusion hsc⟩
      | some v =>
        have hyes : ∃ e ∈ sinks, e.wpAddress = beVal (pySlice (pySlice pkt 24 40) 8 12) := by
          refine ⟨v, List.mem_of_find?_eq_some hfind, ?_⟩
          have := List.find?_some hfind
          simpa using this
        simp only [sendOf, Except.map, hfind]
        exact ⟨iff_of_true rfl ⟨hnh, hmc, hyes⟩,
          fun sc hsc => (Option.some.inj hsc).symm⟩
  · rw [if_neg hnh]
    simp only [sendOf]
    exact ⟨iff_of_false (by simp) (fun h => hnh h.1),
      fun sc hsc => Option.noConfusion hsc⟩

/-- Witness for C1: a 40-byte UDP packet towards sink 0x0a0b0c0d node 1,
    with exactly that sink attached. -/
theorem c1_outbound_send_iff_witness :
    (40 ≤ (List.replicate 6 0 ++ [17, 0] ++ List.replicate 16 0 ++
       [0x20, 0x01, 0x0d, 0xb8, 0, 0, 0, 0, 0x0a, 0x0b, 0x0c, 0x0d, 0, 0, 0, 1] :
       List Nat).length ∧
     (List.replicate 6 0 ++ [17, 0] ++ List.replicate 16 0 ++
       [0x20, 0x01, 0x0d, 0xb8, 0, 0, 0, 0, 0x0a, 0x0b, 0x0c, 0x0d, 0, 0, 0, 1] :
       List Nat).length ≤ 2048) ∧
    (((sendOf (tunIteration
        [⟨0x0a0b0c0d, ⟨List.replicate 8 0, 64⟩, ⟨List.replicate 12 0, 96⟩,
          ⟨List.replicate 16 0, 128⟩, []⟩] ⟨none, none⟩
        (List.replicate 6 0 ++ [17, 0] ++ List.replicate 16 0 ++
          [0x20, 0x01, 0x0d, 0xb8, 0, 0, 0, 0, 0x0a, 0x0b, 0x0c, 0x0d, 0, 0, 0, 1]))).isSome
        = true ↔
      (((List.replicate 6 0 ++ [17, 0] ++ List.replicate 16 0 ++
          [0x20, 0x01, 0x0d, 0xb8, 0, 0, 0, 0, 0x0a, 0x0b, 0x0c, 0x0d, 0, 0, 0, 1] :
          List Nat).getD 6 0 = 17 ∨
        (List.replicate 6 0 ++ [17, 0] ++ List.replicate 16 0 ++
          [0x20, 0x01, 0x0d, 0xb8, 0, 0, 0, 0, 0x0a, 0x0b, 0x0c, 0x0d, 0, 0, 0, 1] :
          List Nat).getD 6 0 = 58) ∧
       ¬ ((List.replicate 6 0 ++ [17, 0] ++ List.replicate 16 0 ++
            [0x20, 0x01, 0x0d, 0xb8, 0, 0, 0, 0, 0x0a, 0x0b, 0x0c, 0x0d, 0, 0, 0, 1] :
            List Nat).getD 24 0 = 255 ∧
          (List.replicate 6 0 ++ [17, 0] ++ List.replicate 16 0 ++
            [0x20, 0x01, 0x0d, 0xb8, 0, 0, 0, 0, 0x0a, 0x0b, 0x0c, 0x0d, 0, 0, 0, 1] :
            List Nat).getD 25 0 = 2) ∧
       ∃ e ∈ [(⟨0x0a0b0c0d, ⟨List.replicate 8 0, 64⟩, ⟨List.replicate 12 0, 96⟩,
               ⟨List.replicate 16 0, 128⟩, []⟩ : SinkEntry)],
         e.wpAddress = beVal (pySlice (pySlice
           (List.replicate 6 0 ++ [17, 0] ++ List.replicate 16 0 ++
             [0x20, 0x01, 0x0d, 0xb8, 0, 0, 0, 0, 0x0a, 0x0b, 0x0c, 0x0d, 0, 0, 0, 1])
           24 40) 8 12))) ∧
     (∀ sc, sendOf (tunIteration
          [⟨0x0a0b0c0d, ⟨List.replicate 8 0, 64⟩, ⟨List.replicate 12 0, 96⟩,
            ⟨List.replicate 16 0, 128⟩, []⟩] ⟨none, none⟩
          (List.replicate 6 0 ++ [17, 0] ++ List.replicate 16 0 ++
            [0x20, 0x01, 0x0d, 0xb8, 0, 0, 0, 0, 0x0a, 0x0b, 0x0c, 0x0d, 0, 0, 0, 1])) =
          some sc →
        sc = ⟨beVal (pySlice (pySlice
                (List.replicate 6 0 ++ [17, 0] ++ List.replicate 16 0 ++
                  [0x20, 0x01, 0x0d, 0xb8, 0, 0, 0, 0, 0x0a, 0x0b, 0x0c, 0x0d, 0, 0, 0, 1])
                24 40) 12 16), 66, 66, 1, 0,
              List.replicate 6 0 ++ [17, 0] ++ List.replicate 16 0 ++
                [0x20, 0x01, 0x0d, 0xb8, 0, 0, 0, 0, 0x0a, 0x0b, 0x0c, 0x0d, 0, 0, 0, 1],
              false, 0⟩)) :=
  ⟨⟨by decide, by decide⟩,
   c1_outbound_send_iff
     [⟨0x0a0b0c0d, ⟨List.replicate 8 0, 64⟩, ⟨List.replicate 12 0, 96⟩,
       ⟨List.replicate 16 0, 128⟩, []⟩] ⟨none, none⟩
     (List.replicate 6 0 ++ [17, 0] ++ List.replicate 16 0 ++
       [0x20, 0x01, 0x0d, 0xb8, 0, 0, 0, 0, 0x0a, 0x0b, 0x0c, 0x0d, 0, 0, 0, 1])
     (by decide) (by decide)⟩

/-- Claim C8: when a read passes the next-header filter but is too short
    for the address slices, the iteration does not drop the packet; the
    parse error is only logged and execution falls through to the tail
    using whatever source and destination bindings already exist (for a
    read shorter than 24 bytes neither is rebound; between 24 and 39
    bytes the source is rebound and the destination stays stale), and
    raises NameError when a needed binding was never created. -/
theorem c8_short_packet_fallthrough (sinks : List SinkEntry) (st : TunState)
    (pkt : List Nat) (h7 : 7 ≤ pkt.length) (h40 : pkt.length < 40)
    (hnh : pkt.getD 6 0 = 17 ∨ pkt.getD 6 0 = 58) :
    (pkt.length < 24 → ∀ s0 d0, st = ⟨some s0, some d0⟩ →
      tunIteration sinks st pkt = (tunTail sinks d0 pkt).map (fun oc => (st, oc))) ∧
    (24 ≤ pkt.length → ∀ d0, st.dstAddr = some d0 →
      tunIteration sinks st pkt =
        (tunTail sinks d0 pkt).map
          (fun oc => (⟨some ⟨pySlice pkt 8 24, 128⟩, some d0⟩, oc))) ∧
    (st.dstAddr = none ∨ (pkt.length < 24 ∧ st.srcAddr = none) →
      tunIteration sinks st pkt = .error .nameErr) := by
  have hlen7 : ¬ (pkt.length < 7) := by omega
  have hcond : ¬ (pkt.getD 6 0 ≠ 58 ∧ pkt.getD 6 0 ≠ 17) := by tauto
  refine ⟨?_, ?_, ?_⟩
  · intro h24 s0 d0 hst
    subst hst
    have hsf : mkIpv6Add (pySlice pkt 8 24) 128 = .error .valueErr := by
      rw [mkIpv6Add,
        if_pos (by simp [pySlice, List.length_drop, List.length_take]; omega)]
    simp only [tunIteration, if_neg hlen7, if_neg hcond, hsf]
  · intro h24 d0 hd
    have hso : mkIpv6Add (pySlice pkt 8 24) 128 = .ok ⟨pySlice pkt 8 24, 128⟩ := by
      rw [mkIpv6Add,
        if_neg (by simp [pySlice, List.length_drop, List.length_take]; omega)]
    have hdf : mkIpv6Add (pySlice pkt 24 40) 128 = .error .valueErr := by
      rw [mkIpv6Add,
        if_pos (by simp [pySlice, List.length_drop, List.length_take]; omega)]
    obtain ⟨sa, da⟩ := st
    obtain rfl : da = some d0 := hd
    simp only [tunIteration, if_neg hlen7, if_neg hcond, hso, hdf]
  · intro h
    rcases h with hdn | ⟨h24, hsn⟩
    · obtain ⟨sa, da⟩ := st
      obtain rfl : da = none := hdn
      by_cases h24 : pkt.length < 24
      · have hsf : mkIpv6Add (pySlice pkt 8 24) 128 = .error .valueErr := by
          rw [mkIpv6Add,
            if_pos (by simp [pySlice, List.length_drop, List.length_take]; omega)]
        simp only [tunIteration, if_neg hlen7, if_neg hcond, hsf]
      · have hso : mkIpv6Add (pySlice pkt 8 24) 128 = .ok ⟨pySlice pkt 8 24, 128⟩ := by
          rw [mkIpv6Add,
            if_neg (by simp [pySlice, List.length_drop, List.length_take]; omega)]
        have hdf : mkIpv6Add (pySlice pkt 24 40) 128 = .error .valueErr := by
          rw [mkIpv6Add,
            if_pos (by simp [pySlice, List.length_drop, List.length_take]; omega)]
        simp only [tunIteration, if_neg hlen7, if_neg hcond, hso, hdf]
    · obtain ⟨sa, da⟩ := st
      obtain rfl : sa = none := hsn
      have hsf : mkIpv6Add (pySlice pkt 8 24) 128 = .error .valueErr := by
        rw [mkIpv6Add,
          if_pos (by simp [pySlice, List.length_drop, List.length_take]; omega)]
      simp only [tunIteration, if_neg hlen7, if_neg hcond, hsf]

/-- Witness for C8 on a 10-byte UDP-flagged read with both bindings left
    over from a previous iteration. -/
theorem c8_short_packet_fallthrough_witness :
    (7 ≤ (List.replicate 6 0 ++ [17, 0, 0, 0] : List Nat).length ∧
     (List.replicate 6 0 ++ [17, 0, 0, 0] : List Nat).length < 40 ∧
     ((List.replicate 6 0 ++ [17, 0, 0, 0] : List Nat).getD 6 0 = 17 ∨
      (List.replicate 6 0 ++ [17, 0, 0, 0] : List Nat).getD 6 0 = 58)) ∧
    (((List.replicate 6 0 ++ [17, 0, 0, 0] : List Nat).length < 24 →
       ∀ s0 d0, (⟨some ⟨List.replicate 16 0, 128⟩, some ⟨List.replicate 16 0, 128⟩⟩ :
           TunState) = ⟨some s0, some d0⟩ →
         tunIteration [] ⟨some ⟨List.replicate 16 0, 128⟩, some ⟨List.replicate 16 0, 128⟩⟩
             (List.replicate 6 0 ++ [17, 0, 0, 0]) =
           (tunTail [] d0 (List.replicate 6 0 ++ [17, 0, 0, 0])).map
             (fun oc =>
               (⟨some ⟨List.replicate 16 0, 128⟩, some ⟨List.replicate 16 0, 128⟩⟩, oc))) ∧
     (24 ≤ (List.replicate 6 0 ++ [17, 0, 0, 0] : List Nat).length →
       ∀ d0, (⟨some ⟨List.replicate 16 0, 128⟩, some ⟨List.replicate 16 0, 128⟩⟩ :
           TunState).dstAddr = some d0 →
         tunIteration [] ⟨some ⟨List.replicate 16 0, 128⟩, some ⟨List.replicate 16 0, 128⟩⟩
             (List.replicate 6 0 ++ [17, 0, 0, 0]) =
           (tunTail [] d0 (List.replicate 6 0 ++ [17, 0, 0, 0])).map
             (fun oc =>
               (⟨some ⟨pySlice (List.replicate 6 0 ++ [17, 0, 0, 0]) 8 24, 128⟩,
                 some d0⟩, oc))) ∧
     ((⟨some ⟨List.replicate 16 0, 128⟩, some ⟨List.replicate 16 0, 128⟩⟩ :
          TunState).dstAddr = none ∨
      ((List.replicate 6 0 ++ [17, 0, 0, 0] : List Nat).length < 24 ∧
       (⟨some ⟨List.replicate 16 0, 128⟩, some ⟨List.replicate 16 0, 128⟩⟩ :
          TunState).srcAddr = none) →
       tunIteration [] ⟨some ⟨List.replicate 16 0, 128⟩, some ⟨List.replicate 16 0, 128⟩⟩
           (List.replicate 6 0 ++ [17, 0, 0, 0]) = .error .nameErr)) :=
  ⟨⟨by decide, by decide, by decide⟩,
   c8_short_packet_fallthrough [] ⟨some ⟨List.replicate 16 0, 128⟩,
     some ⟨List.replicate 16 0, 128⟩⟩ (List.replicate 6 0 ++ [17, 0, 0, 0])
     (by decide) (by decide) (by decide)⟩

theorem digitChar_lt16_avoid : ∀ m, m < 16 → Nat.digitChar m ≠ ':' ∧ Nat.digitChar m ≠ '/' := by
  decide

theorem hexPair_avoid (n : Nat) : ∀ c ∈ hexPair n, c ≠ ':' ∧ c ≠ '/' := by
  intro c hc
  rcases List.mem_cons.mp hc with h | h
  · subst h; exact digitChar_lt16_avoid _ (Nat.mod_lt _ (by norm_num))
  · rcases List.mem_cons.mp h with h2 | h2
    · subst h2; exact digitChar_lt16_avoid _ (Nat.mod_lt _ (by norm_num))
    · simp at h2

theorem chunks2_ne (l : List Nat) : ∀ g ∈ chunks2 l, g ≠ [] := by
  match l with
  | [] => simp [chunks2]
  | [a] => simp [chunks2]
  | a :: b :: r =>
    intro g hg
    rw [chunks2] at hg
    rcases List.mem_cons.mp hg with h | h
    · subst h; simp
    · exact chunks2_ne r g h

theorem hexChunks_ne (b : List Nat) : ∀ g ∈ hexChunks b, g ≠ [] := by
  match b with
  | [] => simp [hexChunks]
  | h :: t =>
    intro g hg
    rw [hexChunks] at hg
    by_cases hpar : (h :: t).length % 2 = 1
    · rw [if_pos hpar] at hg
      rcases List.mem_cons.mp hg with h2 | h2
      · subst h2; simp
      · exact chunks2_ne t g h2
    · rw [if_neg hpar] at hg
      exact chunks2_ne (h :: t) g hg

theorem flatMap_hexPair_ne (g : List Nat) (hg : g ≠ []) : g.flatMap hexPair ≠ [] := by
  match g with
  | [] => exact absurd rfl hg
  | x :: t => simp [List.flatMap_cons, hexPair]

theorem flatMap_hexPair_avoid (g : List Nat) : ∀ c ∈ g.flatMap hexPair, c ≠ ':' ∧ c ≠ '/' := by
  intro c hc
  rcases List.mem_flatMap.mp hc with ⟨x, _, hcx⟩
  exact hexPair_avoid x c hcx

theorem noDC_append (g s : List Char) (hg : ∀ c ∈ g, c ≠ ':') (hs : noDC s = true) :
    noDC (g ++ s) = true := by
  induction g with
  | nil => simpa
  | cons c t ih =>
    have hc : c ≠ ':' := hg c (by simp)
    have ht : ∀ x ∈ t, x ≠ ':' := fun x hx => hg x (by simp [hx])
    have htail : noDC (t ++ s) = true := ih ht
    rw [List.cons_append]
    cases hts : t ++ s with
    | nil => rfl
    | cons y ys =>
      rw [hts] at htail
      rw [noDC]
      simp [hc, htail]

theorem intercalate_head (g : List Char) (r : List (List Char)) :
    ∃ tl, intercalateColon (g :: r) = g ++ tl := by
  cases r with
  | nil => exact ⟨[], by simp [intercalateColon]⟩
  | cons g2 r2 => exact ⟨':' :: intercalateColon (g2 :: r2), by rw [intercalateColon]⟩

theorem intercalate_chars (gs : List (List Char))
    (hne : ∀ g ∈ gs, g ≠ []) (hch : ∀ g ∈ gs, ∀ c ∈ g, c ≠ ':' ∧ c ≠ '/') :
    noDC (intercalateColon gs) = true ∧ ∀ c ∈ intercalateColon gs, c ≠ '/' := by
  induction gs with
  | nil => simp [intercalateColon, noDC]
  | cons g rest ih =>
    have hgne : g ≠ [] := hne g (by simp)
    have hgch : ∀ c ∈ g, c ≠ ':' ∧ c ≠ '/' := hch g (by simp)
    cases rest with
    | nil =>
      constructor
      · simpa using noDC_append g [] (fun c hc => (hgch c hc).1) rfl
      · intro c hc
        rw [intercalateColon] at hc
        exact (hgch c hc).2
    | cons g2 rest2 =>
      have hne2 : ∀ x ∈ g2 :: rest2, x ≠ [] := fun x hx => hne x (by simp [hx])
      have hch2 : ∀ x ∈ g2 :: rest2, ∀ c ∈ x, c ≠ ':' ∧ c ≠ '/' :=
        fun x hx => hch x (by simp [hx])
      obtain ⟨ihDC, ihSl⟩ := ih hne2 hch2
      obtain ⟨tl, htl⟩ := intercalate_head g2 rest2
      have hg2ne : g2 ≠ [] := hne2 g2 (by simp)
      constructor
      · rw [intercalateColon]
        apply noDC_append g _ (fun c hc => (hgch c hc).1)
        obtain ⟨c2, t2, rfl⟩ : ∃ c2 t2, g2 = c2 :: t2 := by
          cases g2 with
          | nil => exact absurd rfl hg2ne
          | cons x y => exact ⟨x, y, rfl⟩
        have hc2 : c2 ≠ ':' := (hch2 (c2 :: t2) (by simp) c2 (by simp)).1
        rw [htl, List.cons_append] at ihDC
        rw [htl, List.cons_append, noDC]
        simp [hc2, ihDC]
      · intro c hc
        rw [intercalateColon] at hc
        rcases List.mem_append.mp hc with h | h
        · exact (hgch c h).2
        · rcases List.mem_cons.mp h with h2 | h2
          · subst h2; decide
          · exact ihSl c h2

theorem bytesHexSep_chars (b : List Nat) :
    noDC (bytesHexSep b) = true ∧ ∀ c ∈ bytesHexSep b, c ≠ '/' := by
  apply intercalate_chars
  · intro g hg
    rcases List.mem_map.mp hg with ⟨g0, hg0, rfl⟩
    exact flatMap_hexPair_ne g0 (hexChunks_ne b g0 hg0)
  · intro g hg
    rcases List.mem_map.mp hg with ⟨g0, _, rfl⟩
    exact flatMap_hexPair_avoid g0

theorem splitCC_noDC (s : List Char) : ∀ acc, noDC s = true →
    splitColonColon acc s = [acc.reverse ++ s] := by
  induction s with
  | nil => intro acc _; simp [splitColonColon]
  | cons a t ih =>
    intro acc h
    cases t with
    | nil => simp [splitColonColon]
    | cons b r =>
      rw [noDC] at h
      simp only [Bool.and_eq_true, Bool.not_eq_true', Bool.and_eq_false_iff,
        beq_eq_false_iff_ne, ne_eq] at h
      obtain ⟨hab, hbr⟩ := h
      have hab2 : ¬ (a = ':' ∧ b = ':') := by
        rcases hab with h1 | h1 <;> tauto
      rw [splitColonColon, if_neg hab2, ih (a :: acc) hbr]
      simp

theorem splitOnce_no_sep (s : List Char) : ∀ acc, (∀ c ∈ s, c ≠ '/') →
    splitOnceAux '/' acc s = (acc.reverse ++ s, none) := by
  induction s with
  | nil => intro acc _; simp [splitOnceAux]
  | cons c t ih =>
    intro acc h
    rw [splitOnceAux, if_neg (h c (by simp)), ih (c :: acc) (fun x hx => h x (by simp [hx]))]
    simp

theorem splitOnce_found (hex dec : List Char) : ∀ acc, (∀ c ∈ hex, c ≠ '/') →
    splitOnceAux '/' acc (hex ++ '/' :: dec) = (acc.reverse ++ hex, some dec) := by
  induction hex with
  | nil => intro acc _; simp [splitOnceAux]
  | cons c t ih =>
    intro acc h
    rw [List.cons_append, splitOnceAux, if_neg (h c (by simp)),
      ih (c :: acc) (fun x hx => h x (by simp [hx]))]
    simp

/-- Counterexample to claim C3: formatting the all-zero host address and
    parsing the result does not give back the address; parsing fails,
    because the format emits all eight groups with no double colon and
    the parser requires exactly one double colon. -/
theorem c3_roundtrip_cx :
    from_srting (ipv6AddStr ⟨List.replicate 16 0, 128⟩) ≠
      .ok ⟨List.replicate 16 0, 128⟩ := by
  intro h
  rw [show from_srting (ipv6AddStr ⟨List.replicate 16 0, 128⟩) = .error .valueErr
    from rfl] at h
  exact Except.noConfusion h

/-- Claim C3 as amended: the textual form produced by the format method
    never contains a double colon (every group is printed in full) while
    the parser unpacks the split on the double colon into exactly two
    parts, so parsing the formatted form of any address, host addresses
    with prefix length 128 and prefixes with length a multiple of 8
    included, raises ValueError instead of returning the address. -/
theorem c3_parse_format_fails (a : Ipv6Add) :
    from_srting (ipv6AddStr a) = .error .valueErr := by
  obtain ⟨hDC, hSl⟩ := bytesHexSep_chars a.add
  have hbody : ∀ plen, fromSrtingBody (bytesHexSep a.add) plen = .error .valueErr := by
    intro plen
    rw [fromSrtingBody, splitCC_noDC _ [] hDC]
  by_cases hplen : a.prefixLen < 128
  · rw [ipv6AddStr, if_pos hplen, from_srting,
      splitOnce_found (bytesHexSep a.add) (Nat.toDigits 10 a.prefixLen) [] hSl]
    simp only [List.reverse_nil, List.nil_append]
    cases hd : pyIntDec (Nat.toDigits 10 a.prefixLen) with
    | none => rfl
    | some n => exact hbody n
  · rw [ipv6AddStr, if_neg hplen, from_srting,
      splitOnce_no_sep (bytesHexSep a.add) [] hSl]
    exact hbody 128
